import Mathlib

/-!
Verification of the per-file classification-and-correction pipeline of
peak-reencode (src/src/peak-reencode.cpp).

Shallow embedding conventions: C++ `double`/`float` values are modelled as
exact rationals (ℚ); `memcmp`-based bit comparison of doubles is modelled as
rational equality; the Euclidean magnitude `sqrt(x*x+y*y+z*z)` used by the
classifier is abstracted as a parameter `mag : Vec3 → ℚ`, since every
classifier property proved here holds for an arbitrary magnitude function.
In C++ the mean at `sampleCount == 0` is `0.0/0 = NaN`, whose comparisons
with 1000/1060 are false; in ℚ the same expression is `0/0 = 0`, whose
comparisons with 1000/1060 are equally false, so the two models agree on
every classifier outcome.
-/

/-- A 3-axis sample (acceleration, magnetic field or angular velocity). -/
structure Vec3 where
  x : ℚ
  y : ℚ
  z : ℚ
deriving DecidableEq

/-- One decoded record of a recording, by reading kind.  `other` stands for
any record whose kind takes no part in the pipeline (unknown or undecodable
payloads are passed through unmodified). -/
inductive Record where
  | legacyAcceleration (v : Vec3)
  | accelerationReading (v : Vec3)
  | magneticFieldReading (v : Vec3)
  | angularVelocityReading (v : Vec3)
  | altitudeReading (a : ℚ)
  | groundSpeedReading (g : ℚ)
  | geodeticHeadingReading (h : ℚ)
  | switchStateReading
  | other
deriving DecidableEq

/-- The classification verdict (four booleans, lines 51-54 and 110-116). -/
structure Verdict where
  isBeforeSiPatch : Bool
  isFromBrokenPatch : Bool
  removeSwitchStateReadings : Bool
  isFine : Bool
deriving DecidableEq

/-- The classifier's running accumulator (lines 56-66 of the source). -/
structure ClassAccum where
  lengthSum : ℚ
  xPrev : ℚ
  yPrev : ℚ
  zPrev : ℚ
  xChangeMax : ℚ
  yChangeMax : ℚ
  zChangeMax : ℚ
  sampleCount : Nat
  removeSwitchStateReadings : Bool
deriving DecidableEq

def classInit : ClassAccum :=
  { lengthSum := 0, xPrev := 0, yPrev := 0, zPrev := 0,
    xChangeMax := 0, yChangeMax := 0, zChangeMax := 0,
    sampleCount := 0, removeSwitchStateReadings := false }

/-- `if change > changeMax then changeMax := change` (lines 87-97). -/
def bump (cur cand : ℚ) : ℚ :=
  if cand > cur then cand else cur

/-- The classifier's update for one qualifying `AccelerationReading`
(lines 77-104 of the source): set `removeSwitchStateReadings`, add the
magnitude to `lengthSum`, update the per-axis maximum deltas against the
previous qualifying sample when one exists, then record the sample as the
new previous one. -/
def sampleStep (mag : Vec3 → ℚ) (a : ClassAccum) (v : Vec3) : ClassAccum :=
  { lengthSum := a.lengthSum + mag v
    xPrev := v.x
    yPrev := v.y
    zPrev := v.z
    xChangeMax := if a.sampleCount ≠ 0 then bump a.xChangeMax |v.x - a.xPrev| else a.xChangeMax
    yChangeMax := if a.sampleCount ≠ 0 then bump a.yChangeMax |v.y - a.yPrev| else a.yChangeMax
    zChangeMax := if a.sampleCount ≠ 0 then bump a.zChangeMax |v.z - a.zPrev| else a.zChangeMax
    sampleCount := a.sampleCount + 1
    removeSwitchStateReadings := true }

/-- One iteration of the classifier scan (lines 67-107): only
`AccelerationReading` records participate. -/
def classStep (mag : Vec3 → ℚ) (a : ClassAccum) (r : Record) : ClassAccum :=
  match r with
  | .accelerationReading v => sampleStep mag a v
  | _ => a

/-- The qualifying samples of a file: its `AccelerationReading` payloads in
file order. -/
def accelSamples (rs : List Record) : List Vec3 :=
  rs.filterMap fun r =>
    match r with
    | .accelerationReading v => some v
    | _ => none

/-- Turning the final accumulator into the verdict (lines 108-116).  In ℚ
the mean at `sampleCount = 0` is `0/0 = 0`, matching the C++ NaN whose
comparisons with the bounds are false. -/
def verdictOf (a : ClassAccum) : Verdict :=
  let lengthMean := a.lengthSum / (a.sampleCount : ℚ)
  let isFromBrokenPatch :=
    decide (a.xChangeMax > 2500) || decide (a.yChangeMax > 2500) ||
      decide (a.zChangeMax > 2500)
  let isBeforeSiPatch :=
    !isFromBrokenPatch && (decide (lengthMean > 1000) && decide (lengthMean < 1060))
  { isBeforeSiPatch := isBeforeSiPatch
    isFromBrokenPatch := isFromBrokenPatch
    removeSwitchStateReadings := a.removeSwitchStateReadings
    isFine := !isBeforeSiPatch && (!isFromBrokenPatch && !a.removeSwitchStateReadings) }

/-- The Defect Classifier: a single forward scan over the file. -/
def classify (mag : Vec3 → ℚ) (rs : List Record) : Verdict :=
  verdictOf (rs.foldl (classStep mag) classInit)

/-- Spec-side: the absolute deltas between consecutive elements. -/
def pairDeltas : List ℚ → List ℚ
  | [] => []
  | [_] => []
  | a :: b :: rest => |b - a| :: pairDeltas (b :: rest)

/-- Spec-side: the maximum of a list of rationals, 0 when empty. -/
def listMax0 (xs : List ℚ) : ℚ := xs.foldr max 0

/-- Spec-side: the maximum absolute sample-to-sample delta of a sequence. -/
def specMaxDelta (xs : List ℚ) : ℚ := listMax0 (pairDeltas xs)

/-- The tail-style delta-maximum the classifier actually folds. -/
def deltaMax (p m : ℚ) : List ℚ → ℚ
  | [] => m
  | x :: rest => deltaMax x (max m |x - p|) rest

lemma bump_eq_max (cur cand : ℚ) : bump cur cand = max cur cand := by
  unfold bump
  rcases lt_or_ge cur cand with h | h
  · simp [h, max_eq_right h.le]
  · simp [not_lt.mpr h, max_eq_left h]

lemma listMax0_nonneg (xs : List ℚ) : 0 ≤ listMax0 xs := by
  induction xs with
  | nil => exact le_refl 0
  | cons a l ih => exact le_trans ih (le_max_right a (listMax0 l))

lemma deltaMax_eq (xs : List ℚ) : ∀ p m : ℚ, 0 ≤ m →
    deltaMax p m xs = max m (specMaxDelta (p :: xs)) := by
  induction xs with
  | nil =>
      intro p m hm
      simp [deltaMax, specMaxDelta, pairDeltas, listMax0, max_eq_left hm]
  | cons x rest ih =>
      intro p m hm
      have h0 : 0 ≤ max m |x - p| := le_trans hm (le_max_left _ _)
      have hspec : specMaxDelta (p :: x :: rest)
          = max |x - p| (specMaxDelta (x :: rest)) := by
        simp [specMaxDelta, pairDeltas, listMax0]
      rw [deltaMax, ih x (max m |x - p|) h0, hspec, max_assoc]

lemma foldl_classStep_eq (mag : Vec3 → ℚ) (rs : List Record) :
    ∀ a : ClassAccum,
      rs.foldl (classStep mag) a = (accelSamples rs).foldl (sampleStep mag) a := by
  induction rs with
  | nil => intro a; rfl
  | cons r rest ih =>
      intro a
      cases r <;> simp [accelSamples, classStep, List.filterMap_cons] <;>
        exact ih _

lemma removeSwitch_foldl (mag : Vec3 → ℚ) (vs : List Vec3) :
    ∀ a : ClassAccum,
      (vs.foldl (sampleStep mag) a).removeSwitchStateReadings
        = (a.removeSwitchStateReadings || !vs.isEmpty) := by
  induction vs with
  | nil => intro a; simp
  | cons v rest ih =>
      intro a
      simp [List.foldl_cons, ih, sampleStep]

lemma count_foldl (mag : Vec3 → ℚ) (vs : List Vec3) :
    ∀ a : ClassAccum,
      (vs.foldl (sampleStep mag) a).sampleCount = a.sampleCount + vs.length := by
  induction vs with
  | nil => intro a; simp
  | cons v rest ih =>
      intro a
      simp [List.foldl_cons, ih, sampleStep]
      omega

lemma lengthSum_foldl (mag : Vec3 → ℚ) (vs : List Vec3) :
    ∀ a : ClassAccum,
      (vs.foldl (sampleStep mag) a).lengthSum = a.lengthSum + (vs.map mag).sum := by
  induction vs with
  | nil => intro a; simp
  | cons v rest ih =>
      intro a
      simp [List.foldl_cons, ih, sampleStep, add_assoc]

lemma changeMax_foldl (mag : Vec3 → ℚ) (vs : List Vec3) :
    ∀ a : ClassAccum, a.sampleCount ≠ 0 →
      (vs.foldl (sampleStep mag) a).xChangeMax
          = deltaMax a.xPrev a.xChangeMax (vs.map Vec3.x)
      ∧ (vs.foldl (sampleStep mag) a).yChangeMax
          = deltaMax a.yPrev a.yChangeMax (vs.map Vec3.y)
      ∧ (vs.foldl (sampleStep mag) a).zChangeMax
          = deltaMax a.zPrev a.zChangeMax (vs.map Vec3.z) := by
  induction vs with
  | nil =>
      intro a _
      exact ⟨rfl, rfl, rfl⟩
  | cons v rest ih =>
      intro a ha
      have h2 : (sampleStep mag a v).sampleCount ≠ 0 := by
        simp [sampleStep]
      obtain ⟨hx, hy, hz⟩ := ih (sampleStep mag a v) h2
      simp [sampleStep, ha, bump_eq_max] at hx hy hz
      refine ⟨?_, ?_, ?_⟩ <;>
        simp [List.foldl_cons, sampleStep, ha, bump_eq_max, deltaMax] <;>
        first
          | exact hx
          | exact hy
          | exact hz

/-- The final accumulator characterized by list-level spec quantities. -/
lemma classAccum_spec (mag : Vec3 → ℚ) (rs : List Record) :
    (rs.foldl (classStep mag) classInit).xChangeMax
        = specMaxDelta ((accelSamples rs).map Vec3.x)
    ∧ (rs.foldl (classStep mag) classInit).yChangeMax
        = specMaxDelta ((accelSamples rs).map Vec3.y)
    ∧ (rs.foldl (classStep mag) classInit).zChangeMax
        = specMaxDelta ((accelSamples rs).map Vec3.z)
    ∧ (rs.foldl (classStep mag) classInit).lengthSum
        = ((accelSamples rs).map mag).sum
    ∧ (rs.foldl (classStep mag) classInit).sampleCount
        = (accelSamples rs).length
    ∧ (rs.foldl (classStep mag) classInit).removeSwitchStateReadings
        = !(accelSamples rs).isEmpty := by
  rw [foldl_classStep_eq]
  rcases hvs : accelSamples rs with _ | ⟨v, rest⟩
  · simp [classInit, specMaxDelta, pairDeltas, listMax0]
  · have hone : (sampleStep mag classInit v).sampleCount ≠ 0 := by
      simp [sampleStep]
    obtain ⟨hx, hy, hz⟩ := changeMax_foldl mag rest (sampleStep mag classInit v) hone
    have hsum := lengthSum_foldl mag rest (sampleStep mag classInit v)
    have hcnt := count_foldl mag rest (sampleStep mag classInit v)
    have hrm := removeSwitch_foldl mag rest (sampleStep mag classInit v)
    refine ⟨?_, ?_, ?_, ?_, ?_, ?_⟩
    · rw [List.foldl_cons, hx]
      show deltaMax v.x 0 (List.map Vec3.x rest)
          = specMaxDelta (List.map Vec3.x (v :: rest))
      rw [deltaMax_eq _ _ _ (le_refl 0), List.map_cons]
      exact max_eq_right (listMax0_nonneg _)
    · rw [List.foldl_cons, hy]
      show deltaMax v.y 0 (List.map Vec3.y rest)
          = specMaxDelta (List.map Vec3.y (v :: rest))
      rw [deltaMax_eq _ _ _ (le_refl 0), List.map_cons]
      exact max_eq_right (listMax0_nonneg _)
    · rw [List.foldl_cons, hz]
      show deltaMax v.z 0 (List.map Vec3.z rest)
          = specMaxDelta (List.map Vec3.z (v :: rest))
      rw [deltaMax_eq _ _ _ (le_refl 0), List.map_cons]
      exact max_eq_right (listMax0_nonneg _)
    · rw [List.foldl_cons, hsum]
      simp [sampleStep, classInit]
    · rw [List.foldl_cons, hcnt]
      simp [sampleStep, classInit]
      omega
    · rw [List.foldl_cons, hrm]
      simp [sampleStep]

/-- Claim C1: after the single forward scan, `isFromBrokenPatch` holds iff
some axis's maximum absolute sample-to-sample delta (each qualifying record
against the immediately preceding qualifying record) exceeds 2500, regardless
of the mean magnitude; and `isBeforeSiPatch` holds iff `isFromBrokenPatch` is
false and the mean magnitude over the qualifying records lies strictly
between 1000 and 1060. -/
theorem classifier_postcondition (mag : Vec3 → ℚ) (rs : List Record) :
    ((classify mag rs).isFromBrokenPatch = true ↔
      (specMaxDelta ((accelSamples rs).map Vec3.x) > 2500
        ∨ specMaxDelta ((accelSamples rs).map Vec3.y) > 2500
        ∨ specMaxDelta ((accelSamples rs).map Vec3.z) > 2500))
    ∧ ((classify mag rs).isBeforeSiPatch = true ↔
      ((classify mag rs).isFromBrokenPatch = false
        ∧ ((accelSamples rs).map mag).sum / ((accelSamples rs).length : ℚ) > 1000
        ∧ ((accelSamples rs).map mag).sum / ((accelSamples rs).length : ℚ) < 1060)) := by
  obtain ⟨hx, hy, hz, hsum, hcount, _⟩ := classAccum_spec mag rs
  constructor
  · simp [classify, verdictOf, hx, hy, hz, or_assoc]
  · simp [classify, verdictOf, hx, hy, hz, hsum, hcount, or_assoc, and_assoc,
      not_or]

/-- Claim C2: a file with no `AccelerationReading` records is classified with
all three defect flags false and `isFine = true`; in particular the
mean-magnitude division at qualifying-record count zero yields a value whose
comparisons with the bounds are false (no divide-by-zero fault). -/
theorem classify_no_accel (mag : Vec3 → ℚ) (rs : List Record)
    (h : accelSamples rs = []) :
    classify mag rs
      = { isBeforeSiPatch := false, isFromBrokenPatch := false,
          removeSwitchStateReadings := false, isFine := true } := by
  unfold classify verdictOf
  rw [foldl_classStep_eq, h, List.foldl_nil]
  norm_num [classInit]

/-- Witness for C2 at a concrete one-record file without acceleration
readings. -/
theorem classify_no_accel_witness :
    accelSamples [Record.switchStateReading] = []
    ∧ classify (fun v => v.x) [Record.switchStateReading]
        = { isBeforeSiPatch := false, isFromBrokenPatch := false,
            removeSwitchStateReadings := false, isFine := true } :=
  ⟨rfl, classify_no_accel (fun v => v.x) [Record.switchStateReading] rfl⟩

/-! ## Correction Engine (lines 143-433 of the source) -/

/-- `9.80665f/1000.f` (line 158), modelled exactly in ℚ. -/
def mGtoMps2 : ℚ := 9.80665 / 1000

/-- `1e-6f` (line 159), modelled exactly in ℚ. -/
def mTtoT : ℚ := 1e-6

/-- Per-axis broken-patch fix: subtract `offset` when the raw value exceeds
`threshold`, else leave the axis unchanged (lines 218-226, 253-261,
307-315). -/
def fixAxis (threshold offset v : ℚ) : ℚ :=
  if v > threshold then v - offset else v

def fixVec (threshold offset : ℚ) (v : Vec3) : Vec3 :=
  { x := fixAxis threshold offset v.x
    y := fixAxis threshold offset v.y
    z := fixAxis threshold offset v.z }

def scaleVec (k : ℚ) (v : Vec3) : Vec3 :=
  { x := v.x * k, y := v.y * k, z := v.z * k }

/-- The acceleration correction (lines 206-230 and 241-265): the SI scaling
is applied when `isBeforeSiPatch`, and when `isFromBrokenPatch` the result is
overwritten by the per-axis offset fix computed from the RAW values. -/
def accelCorrect (vd : Verdict) (v : Vec3) : Vec3 :=
  let vNew := if vd.isBeforeSiPatch then scaleVec mGtoMps2 v else v
  if vd.isFromBrokenPatch then fixVec 1250 2512.874 v else vNew

/-- The magnetic-field correction (lines 295-319), same structure with the
µT→T factor and the 0.01 / 0.0196605 broken-patch fix. -/
def magCorrect (vd : Verdict) (v : Vec3) : Vec3 :=
  let vNew := if vd.isBeforeSiPatch then scaleVec mTtoT v else v
  if vd.isFromBrokenPatch then fixVec 0.01 0.0196605 v else vNew

/-- The per-kind dedup state of the transform pass (lines 168-190). -/
structure DedupState where
  foundAngularVelocity : Bool
  prevAngularVelocity : Vec3
  skippedAngularVelocity : Nat
  foundMagneticField : Bool
  prevMagneticField : Vec3
  skippedMagneticField : Nat
  foundAltitude : Bool
  prevAltitude : ℚ
  skippedAltitude : Nat
  foundGroundSpeed : Bool
  prevGroundSpeed : ℚ
  skippedGroundSpeed : Nat
  foundGeodeticHeading : Bool
  prevGeodeticHeading : ℚ
  skippedGeodeticHeading : Nat
deriving DecidableEq

def initDedup : DedupState :=
  { foundAngularVelocity := false, prevAngularVelocity := ⟨0, 0, 0⟩,
    skippedAngularVelocity := 0,
    foundMagneticField := false, prevMagneticField := ⟨0, 0, 0⟩,
    skippedMagneticField := 0,
    foundAltitude := false, prevAltitude := 0, skippedAltitude := 0,
    foundGroundSpeed := false, prevGroundSpeed := 0, skippedGroundSpeed := 0,
    foundGeodeticHeading := false, prevGeodeticHeading := 0,
    skippedGeodeticHeading := 0 }

/-- The per-record step of the transform pass (lines 192-422): the returned
option is `none` when the record is dropped, `some` the re-encoded record
otherwise.  Dedup comparisons are on the RAW payloads (`_old`), and the kept
previous values store the raw payloads too, exactly as in the source. -/
def correctionStep (vd : Verdict) (st : DedupState) (r : Record) :
    DedupState × Option Record :=
  match r with
  | .switchStateReading =>
      if vd.removeSwitchStateReadings then (st, none) else (st, some r)
  | .legacyAcceleration v => (st, some (.legacyAcceleration (accelCorrect vd v)))
  | .accelerationReading v => (st, some (.accelerationReading (accelCorrect vd v)))
  | .magneticFieldReading v =>
      if st.foundMagneticField
          ∧ (v.x = st.prevMagneticField.x ∨ v.y = st.prevMagneticField.y
              ∨ v.z = st.prevMagneticField.z) then
        ({ st with skippedMagneticField := st.skippedMagneticField + 1 }, none)
      else
        ({ st with foundMagneticField := true, prevMagneticField := v },
          some (.magneticFieldReading (magCorrect vd v)))
  | .angularVelocityReading v =>
      if st.foundAngularVelocity
          ∧ (v.x = st.prevAngularVelocity.x ∨ v.y = st.prevAngularVelocity.y
              ∨ v.z = st.prevAngularVelocity.z) then
        ({ st with skippedAngularVelocity := st.skippedAngularVelocity + 1 }, none)
      else
        ({ st with foundAngularVelocity := true, prevAngularVelocity := v },
          some (.angularVelocityReading v))
  | .altitudeReading x =>
      if st.foundAltitude
          ∧ (st.prevAltitude - x > 0.98 * |st.prevAltitude| ∨ x = st.prevAltitude) then
        ({ st with skippedAltitude := st.skippedAltitude + 1 }, none)
      else
        ({ st with foundAltitude := true, prevAltitude := x },
          some (.altitudeReading x))
  | .groundSpeedReading x =>
      if st.foundGroundSpeed
          ∧ (st.prevGroundSpeed - x > 0.98 * |st.prevGroundSpeed|
              ∨ x = st.prevGroundSpeed) then
        ({ st with skippedGroundSpeed := st.skippedGroundSpeed + 1 }, none)
      else
        ({ st with foundGroundSpeed := true, prevGroundSpeed := x },
          some (.groundSpeedReading x))
  | .geodeticHeadingReading x =>
      if |x| < 0.001 then (st, none)
      else if st.foundGeodeticHeading
          ∧ (st.prevGeodeticHeading - x > 0.98 * |st.prevGeodeticHeading|
              ∨ x = st.prevGeodeticHeading) then
        ({ st with skippedGeodeticHeading := st.skippedGeodeticHeading + 1 }, none)
      else
        ({ st with foundGeodeticHeading := true, prevGeodeticHeading := x },
          some (.geodeticHeadingReading x))
  | .other => (st, some r)

/-- The transform pass from a given dedup state, over the records in
ascending `sampleTime` order (the temporal reordering itself is delegated to
the external `cluon::Player`). -/
def correctFrom (vd : Verdict) : DedupState → List Record → List Record
  | _, [] => []
  | st, r :: rest =>
      match correctionStep vd st r with
      | (st2, none) => correctFrom vd st2 rest
      | (st2, some r2) => r2 :: correctFrom vd st2 rest

def correctRecords (vd : Verdict) (rs : List Record) : List Record :=
  correctFrom vd initDedup rs

/-- The per-file pipeline: classify, then either copy the file unchanged
(`isFine`, lines 135-141) or run the transform pass. -/
def processRecFile (mag : Vec3 → ℚ) (rs : List Record) : List Record :=
  if (classify mag rs).isFine then rs else correctRecords (classify mag rs) rs

/-- In `verdictOf`, `isBeforeSiPatch` is assigned only under
`!isFromBrokenPatch` (lines 112-114), so it implies the broken flag is
clear. -/
lemma classify_before_not_broken (mag : Vec3 → ℚ) (rs : List Record)
    (h : (classify mag rs).isBeforeSiPatch = true) :
    (classify mag rs).isFromBrokenPatch = false := by
  revert h
  simp only [classify, verdictOf, Bool.and_eq_true, Bool.not_eq_true']
  exact fun h => h.1

/-- Claim C5: when the verdict has `isFromBrokenPatch`, both acceleration
kinds are kept with each axis corrected independently from the raw value —
subtract 2512.874 when the axis exceeds 1250, else leave it unchanged; in
particular 2600 becomes 87.126 and 1200 is unchanged. -/
theorem broken_patch_offset (vd : Verdict) (st : DedupState) (v : Vec3)
    (h : vd.isFromBrokenPatch = true) :
    (correctionStep vd st (.legacyAcceleration v)).2
        = some (.legacyAcceleration (fixVec 1250 2512.874 v))
    ∧ (correctionStep vd st (.accelerationReading v)).2
        = some (.accelerationReading (fixVec 1250 2512.874 v))
    ∧ fixAxis 1250 2512.874 2600 = 87.126
    ∧ fixAxis 1250 2512.874 1200 = 1200 := by
  refine ⟨?_, ?_, ?_, ?_⟩
  · simp [correctionStep, accelCorrect, h]
  · simp [correctionStep, accelCorrect, h]
  · norm_num [fixAxis]
  · norm_num [fixAxis]

/-- Witness for C5 at a concrete verdict and sample. -/
theorem broken_patch_offset_witness :
    (({ isBeforeSiPatch := false, isFromBrokenPatch := true,
        removeSwitchStateReadings := false, isFine := false } :
          Verdict)).isFromBrokenPatch = true
    ∧ (correctionStep
          { isBeforeSiPatch := false, isFromBrokenPatch := true,
            removeSwitchStateReadings := false, isFine := false }
          initDedup (.accelerationReading ⟨2600, 1200, 0⟩)).2
        = some (.accelerationReading (fixVec 1250 2512.874 ⟨2600, 1200, 0⟩)) :=
  ⟨rfl,
    (broken_patch_offset
      { isBeforeSiPatch := false, isFromBrokenPatch := true,
        removeSwitchStateReadings := false, isFine := false }
      initDedup ⟨2600, 1200, 0⟩ rfl).2.1⟩

/-- Claim C10: a classifier verdict never has `isBeforeSiPatch` and
`isFromBrokenPatch` simultaneously, and consequently an acceleration payload
receives at most one of the two numeric corrections: it is either SI-scaled,
or offset-fixed, or untouched — never both corrections composed. -/
theorem flags_mutually_exclusive (mag : Vec3 → ℚ) (rs : List Record) :
    ¬((classify mag rs).isBeforeSiPatch = true
        ∧ (classify mag rs).isFromBrokenPatch = true)
    ∧ ∀ v : Vec3,
        (accelCorrect (classify mag rs) v = scaleVec mGtoMps2 v
            ∧ (classify mag rs).isBeforeSiPatch = true
            ∧ (classify mag rs).isFromBrokenPatch = false)
        ∨ (accelCorrect (classify mag rs) v = fixVec 1250 2512.874 v
            ∧ (classify mag rs).isFromBrokenPatch = true
            ∧ (classify mag rs).isBeforeSiPatch = false)
        ∨ (accelCorrect (classify mag rs) v = v
            ∧ (classify mag rs).isBeforeSiPatch = false
            ∧ (classify mag rs).isFromBrokenPatch = false) := by
  constructor
  · rintro ⟨hb, hbr⟩
    rw [classify_before_not_broken mag rs hb] at hbr
    exact Bool.false_ne_true hbr
  · intro v
    rcases hbr : (classify mag rs).isFromBrokenPatch with _ | _
    · rcases hb : (classify mag rs).isBeforeSiPatch with _ | _
      · right; right
        exact ⟨by simp [accelCorrect, hb, hbr], rfl, rfl⟩
      · left
        exact ⟨by simp [accelCorrect, hb, hbr], rfl, rfl⟩
    · have hb : (classify mag rs).isBeforeSiPatch = false := by
        rcases hB : (classify mag rs).isBeforeSiPatch with _ | _
        · rfl
        · rw [classify_before_not_broken mag rs hB] at hbr
          exact absurd hbr (by simp)
      right; left
      exact ⟨by simp [accelCorrect, hbr], rfl, hb⟩

/-- Claim C7: `removeSwitchStateReadings` holds iff the file contains at
least one `AccelerationReading`, and in the transform pass a
`SwitchStateReading` is dropped exactly when that flag is set. -/
theorem switch_state_suppression (mag : Vec3 → ℚ) (rs : List Record) :
    ((classify mag rs).removeSwitchStateReadings = true
        ↔ ∃ v : Vec3, Record.accelerationReading v ∈ rs)
    ∧ ∀ (vd : Verdict) (st : DedupState),
        ((correctionStep vd st .switchStateReading).2 = none
          ↔ vd.removeSwitchStateReadings = true) := by
  constructor
  · obtain ⟨_, _, _, _, _, hrm⟩ := classAccum_spec mag rs
    have hproj : (classify mag rs).removeSwitchStateReadings
        = (rs.foldl (classStep mag) classInit).removeSwitchStateReadings := rfl
    rw [hproj, hrm]
    constructor
    · intro hne
      have : accelSamples rs ≠ [] := by
        intro hnil
        rw [hnil] at hne
        simp at hne
      rcases List.exists_mem_of_ne_nil _ this with ⟨v, hv⟩
      refine ⟨v, ?_⟩
      rcases List.mem_filterMap.mp hv with ⟨r, hr, hf⟩
      cases r <;> simp_all
    · rintro ⟨v, hv⟩
      have hv2 : v ∈ accelSamples rs :=
        List.mem_filterMap.mpr ⟨Record.accelerationReading v, hv, rfl⟩
      rcases hAS : accelSamples rs with _ | ⟨w, ws⟩
      · rw [hAS] at hv2
        simp at hv2
      · simp
  · intro vd st
    rcases hsw : vd.removeSwitchStateReadings with _ | _
    · simp [correctionStep, hsw]
    · simp [correctionStep, hsw]

/-- Claim C6: under an `isBeforeSiPatch` verdict of the classifier, both
acceleration kinds are kept with each axis multiplied by 9.80665/1000, every
KEPT magnetic-field record has each axis multiplied by 1e-6, a milli-g axis
of 1000 converts exactly to 9.80665, and no other reading kind is rescaled
(kept records of the remaining kinds carry their payload unchanged). -/
theorem si_unit_conversion (mag : Vec3 → ℚ) (rs : List Record)
    (h : (classify mag rs).isBeforeSiPatch = true) :
    (∀ (st : DedupState) (v : Vec3),
        (correctionStep (classify mag rs) st (.legacyAcceleration v)).2
          = some (.legacyAcceleration (scaleVec mGtoMps2 v)))
    ∧ (∀ (st : DedupState) (v : Vec3),
        (correctionStep (classify mag rs) st (.accelerationReading v)).2
          = some (.accelerationReading (scaleVec mGtoMps2 v)))
    ∧ (∀ (st : DedupState) (v : Vec3) (r : Record),
        (correctionStep (classify mag rs) st (.magneticFieldReading v)).2 = some r
          → r = .magneticFieldReading (scaleVec mTtoT v))
    ∧ (1000 : ℚ) * mGtoMps2 = 9.80665
    ∧ (∀ (st : DedupState) (v : Vec3) (r : Record),
        (correctionStep (classify mag rs) st (.angularVelocityReading v)).2 = some r
          → r = .angularVelocityReading v)
    ∧ (∀ (st : DedupState) (x : ℚ) (r : Record),
        (correctionStep (classify mag rs) st (.altitudeReading x)).2 = some r
          → r = .altitudeReading x)
    ∧ (∀ (st : DedupState) (x : ℚ) (r : Record),
        (correctionStep (classify mag rs) st (.groundSpeedReading x)).2 = some r
          → r = .groundSpeedReading x)
    ∧ (∀ (st : DedupState) (x : ℚ) (r : Record),
        (correctionStep (classify mag rs) st (.geodeticHeadingReading x)).2 = some r
          → r = .geodeticHeadingReading x) := by
  have hbr := classify_before_not_broken mag rs h
  refine ⟨?_, ?_, ?_, ?_, ?_, ?_, ?_, ?_⟩
  · intro st v
    simp [correctionStep, accelCorrect, h, hbr]
  · intro st v
    simp [correctionStep, accelCorrect, h, hbr]
  · intro st v r hr
    simp only [correctionStep] at hr
    split at hr
    · simp at hr
    · simp only [Option.some.injEq] at hr
      subst hr
      simp [magCorrect, h, hbr]
  · norm_num [mGtoMps2]
  · intro st v r hr
    simp only [correctionStep] at hr
    split at hr
    · simp at hr
    · simp only [Option.some.injEq] at hr
      exact hr.symm
  · intro st x r hr
    simp only [correctionStep] at hr
    split at hr
    · simp at hr
    · simp only [Option.some.injEq] at hr
      exact hr.symm
  · intro st x r hr
    simp only [correctionStep] at hr
    split at hr
    · simp at hr
    · simp only [Option.some.injEq] at hr
      exact hr.symm
  · intro st x r hr
    simp only [correctionStep] at hr
    split at hr
    · simp at hr
    · split at hr
      · simp at hr
      · simp only [Option.some.injEq] at hr
        exact hr.symm

/-- Witness for C6 at a one-sample file whose mean magnitude is 1030. -/
theorem si_unit_conversion_witness :
    (classify Vec3.x [Record.accelerationReading ⟨1030, 0, 0⟩]).isBeforeSiPatch = true
    ∧ (correctionStep (classify Vec3.x [Record.accelerationReading ⟨1030, 0, 0⟩])
          initDedup (.accelerationReading ⟨1000, 0, 0⟩)).2
        = some (.accelerationReading (scaleVec mGtoMps2 ⟨1000, 0, 0⟩)) := by
  have h : (classify Vec3.x [Record.accelerationReading ⟨1030, 0, 0⟩]).isBeforeSiPatch
      = true := by
    simp [classify, verdictOf, classStep, sampleStep, accelSamples, classInit, bump]
    norm_num
  exact ⟨h,
    (si_unit_conversion Vec3.x [Record.accelerationReading ⟨1030, 0, 0⟩] h).2.1
      initDedup ⟨1000, 0, 0⟩⟩

/-- Claim C8: an `isFine` file bypasses the transform pass — the output is
the unchanged input — and running the pipeline on that output again returns
it unchanged (idempotence on already-correct data). -/
theorem fine_passthrough_idempotent (mag : Vec3 → ℚ) (rs : List Record)
    (h : (classify mag rs).isFine = true) :
    processRecFile mag rs = rs
    ∧ processRecFile mag (processRecFile mag rs) = processRecFile mag rs := by
  have h1 : processRecFile mag rs = rs := by
    simp [processRecFile, h]
  exact ⟨h1, by rw [h1, h1]⟩

/-- Witness for C8 at a concrete defect-free file. -/
theorem fine_passthrough_idempotent_witness :
    (classify (fun v => v.x) [Record.altitudeReading 5]).isFine = true
    ∧ processRecFile (fun v => v.x) [Record.altitudeReading 5]
        = [Record.altitudeReading 5] := by
  have h : (classify (fun v => v.x) [Record.altitudeReading 5]).isFine = true := by
    simp [classify, verdictOf, classStep, accelSamples, classInit]
  exact ⟨h,
    (fine_passthrough_idempotent (fun v => v.x) [Record.altitudeReading 5] h).1⟩

/-! ## Spec-side dedup/drop rules (refinement targets for C3 and C4) -/

def magProj : Record → Option Vec3
  | .magneticFieldReading v => some v
  | _ => none

def angProj : Record → Option Vec3
  | .angularVelocityReading v => some v
  | _ => none

def altProj : Record → Option ℚ
  | .altitudeReading x => some x
  | _ => none

def gsProj : Record → Option ℚ
  | .groundSpeedReading x => some x
  | _ => none

def headProj : Record → Option ℚ
  | .geodeticHeadingReading x => some x
  | _ => none

/-- Spec-side dedup rule for the 3-axis kinds, following the spec's words: a
reading is dropped iff it is not the first kept reading of its kind and any
one of its three axes equals (bit-exactly, modelled as rational equality) the
corresponding axis of the immediately previous kept reading. -/
def specDedupVec3 : Option Vec3 → List Vec3 → List Vec3
  | _, [] => []
  | none, v :: rest => v :: specDedupVec3 (some v) rest
  | some p, v :: rest =>
      if v.x = p.x ∨ v.y = p.y ∨ v.z = p.z then specDedupVec3 (some p) rest
      else v :: specDedupVec3 (some v) rest

/-- Spec-side scalar drop condition, following the spec's words: a sudden
large drop (previous − current > 0.98·|previous|) or a bit-exact duplicate of
the previous kept value. -/
def specScalarDrop (p x : ℚ) : Prop :=
  p - x > 0.98 * |p| ∨ x = p

instance (p x : ℚ) : Decidable (specScalarDrop p x) :=
  inferInstanceAs (Decidable (p - x > 0.98 * |p| ∨ x = p))

/-- Spec-side filter for `AltitudeReading` / `GroundSpeedReading`: drop iff
not-first and the scalar drop condition holds against the previous kept
value. -/
def specScalarFilter : Option ℚ → List ℚ → List ℚ
  | _, [] => []
  | none, x :: rest => x :: specScalarFilter (some x) rest
  | some p, x :: rest =>
      if specScalarDrop p x then specScalarFilter (some p) rest
      else x :: specScalarFilter (some x) rest

/-- Spec-side filter for `GeodeticHeadingReading`: drop unconditionally when
`|value| < 0.001` (without consuming or setting the previous kept value),
else follow the scalar rule. -/
def specHeadingFilter : Option ℚ → List ℚ → List ℚ
  | _, [] => []
  | o, x :: rest =>
      if |x| < 0.001 then specHeadingFilter o rest
      else
        match o with
        | none => x :: specHeadingFilter (some x) rest
        | some p =>
            if specScalarDrop p x then specHeadingFilter (some p) rest
            else x :: specHeadingFilter (some x) rest

lemma correctFrom_magProj (vd : Verdict) (rs : List Record) :
    ∀ st : DedupState,
      (correctFrom vd st rs).filterMap magProj
        = (specDedupVec3
            (if st.foundMagneticField then some st.prevMagneticField else none)
            (rs.filterMap magProj)).map (magCorrect vd) := by
  induction rs with
  | nil =>
      intro st
      cases hf : st.foundMagneticField <;> simp [correctFrom, specDedupVec3, hf]
  | cons r rest ih =>
      intro st
      cases r with
      | magneticFieldReading v =>
          by_cases hf : st.foundMagneticField = true
          · by_cases hs : v.x = st.prevMagneticField.x ∨ v.y = st.prevMagneticField.y
                ∨ v.z = st.prevMagneticField.z
            · simp [correctFrom, correctionStep, hf, hs, List.filterMap_cons,
                magProj, specDedupVec3, ih]
            · simp [correctFrom, correctionStep, hf, hs, List.filterMap_cons,
                magProj, specDedupVec3, ih]
          · simp [correctFrom, correctionStep, hf, List.filterMap_cons,
              magProj, specDedupVec3, ih]
      | switchStateReading =>
          by_cases hsw : vd.removeSwitchStateReadings = true <;>
            simp [correctFrom, correctionStep, hsw, List.filterMap_cons, magProj, ih]
      | legacyAcceleration v =>
          simp [correctFrom, correctionStep, List.filterMap_cons, magProj, ih]
      | accelerationReading v =>
          simp [correctFrom, correctionStep, List.filterMap_cons, magProj, ih]
      | angularVelocityReading v =>
          by_cases hc : st.foundAngularVelocity = true
              ∧ (v.x = st.prevAngularVelocity.x ∨ v.y = st.prevAngularVelocity.y
                  ∨ v.z = st.prevAngularVelocity.z) <;>
            simp [correctFrom, correctionStep, hc, List.filterMap_cons, magProj, ih]
      | altitudeReading x =>
          by_cases hc : st.foundAltitude = true
              ∧ (st.prevAltitude - x > 0.98 * |st.prevAltitude| ∨ x = st.prevAltitude) <;>
            simp [correctFrom, correctionStep, hc, List.filterMap_cons, magProj, ih]
      | groundSpeedReading x =>
          by_cases hc : st.foundGroundSpeed = true
              ∧ (st.prevGroundSpeed - x > 0.98 * |st.prevGroundSpeed|
                  ∨ x = st.prevGroundSpeed) <;>
            simp [correctFrom, correctionStep, hc, List.filterMap_cons, magProj, ih]
      | geodeticHeadingReading x =>
          by_cases h0 : |x| < 0.001
          · simp [correctFrom, correctionStep, h0, List.filterMap_cons, magProj, ih]
          · by_cases hc : st.foundGeodeticHeading = true
                ∧ (st.prevGeodeticHeading - x > 0.98 * |st.prevGeodeticHeading|
                    ∨ x = st.prevGeodeticHeading) <;>
              simp [correctFrom, correctionStep, h0, hc, List.filterMap_cons,
                magProj, ih]
      | other =>
          simp [correctFrom, correctionStep, List.filterMap_cons, magProj, ih]

lemma correctFrom_angProj (vd : Verdict) (rs : List Record) :
    ∀ st : DedupState,
      (correctFrom vd st rs).filterMap angProj
        = specDedupVec3
            (if st.foundAngularVelocity then some st.prevAngularVelocity else none)
            (rs.filterMap angProj) := by
  induction rs with
  | nil =>
      intro st
      cases hf : st.foundAngularVelocity <;> simp [correctFrom, specDedupVec3, hf]
  | cons r rest ih =>
      intro st
      cases r with
      | angularVelocityReading v =>
          by_cases hf : st.foundAngularVelocity = true
          · by_cases hs : v.x = st.prevAngularVelocity.x ∨ v.y = st.prevAngularVelocity.y
                ∨ v.z = st.prevAngularVelocity.z
            · simp [correctFrom, correctionStep, hf, hs, List.filterMap_cons,
                angProj, specDedupVec3, ih]
            · simp [correctFrom, correctionStep, hf, hs, List.filterMap_cons,
                angProj, specDedupVec3, ih]
          · simp [correctFrom, correctionStep, hf, List.filterMap_cons,
              angProj, specDedupVec3, ih]
      | switchStateReading =>
          by_cases hsw : vd.removeSwitchStateReadings = true <;>
            simp [correctFrom, correctionStep, hsw, List.filterMap_cons, angProj, ih]
      | legacyAcceleration v =>
          simp [correctFrom, correctionStep, List.filterMap_cons, angProj, ih]
      | accelerationReading v =>
          simp [correctFrom, correctionStep, List.filterMap_cons, angProj, ih]
      | magneticFieldReading v =>
          by_cases hc : st.foundMagneticField = true
              ∧ (v.x = st.prevMagneticField.x ∨ v.y = st.prevMagneticField.y
                  ∨ v.z = st.prevMagneticField.z) <;>
            simp [correctFrom, correctionStep, hc, List.filterMap_cons, angProj, ih]
      | altitudeReading x =>
          by_cases hc : st.foundAltitude = true
              ∧ (st.prevAltitude - x > 0.98 * |st.prevAltitude| ∨ x = st.prevAltitude) <;>
            simp [correctFrom, correctionStep, hc, List.filterMap_cons, angProj, ih]
      | groundSpeedReading x =>
          by_cases hc : st.foundGroundSpeed = true
              ∧ (st.prevGroundSpeed - x > 0.98 * |st.prevGroundSpeed|
                  ∨ x = st.prevGroundSpeed) <;>
            simp [correctFrom, correctionStep, hc, List.filterMap_cons, angProj, ih]
      | geodeticHeadingReading x =>
          by_cases h0 : |x| < 0.001
          · simp [correctFrom, correctionStep, h0, List.filterMap_cons, angProj, ih]
          · by_cases hc : st.foundGeodeticHeading = true
                ∧ (st.prevGeodeticHeading - x > 0.98 * |st.prevGeodeticHeading|
                    ∨ x = st.prevGeodeticHeading) <;>
              simp [correctFrom, correctionStep, h0, hc, List.filterMap_cons,
                angProj, ih]
      | other =>
          simp [correctFrom, correctionStep, List.filterMap_cons, angProj, ih]

lemma correctFrom_altProj (vd : Verdict) (rs : List Record) :
    ∀ st : DedupState,
      (correctFrom vd st rs).filterMap altProj
        = specScalarFilter
            (if st.foundAltitude then some st.prevAltitude else none)
            (rs.filterMap altProj) := by
  induction rs with
  | nil =>
      intro st
      cases hf : st.foundAltitude <;> simp [correctFrom, specScalarFilter, hf]
  | cons r rest ih =>
      intro st
      cases r with
      | altitudeReading x =>
          by_cases hf : st.foundAltitude = true
          · by_cases hs : st.prevAltitude - x > 0.98 * |st.prevAltitude|
                ∨ x = st.prevAltitude
            · simp [correctFrom, correctionStep, hf, hs, List.filterMap_cons,
                altProj, specScalarFilter, specScalarDrop, ih]
            · simp [correctFrom, correctionStep, hf, hs, List.filterMap_cons,
                altProj, specScalarFilter, specScalarDrop, ih]
          · simp [correctFrom, correctionStep, hf, List.filterMap_cons,
              altProj, specScalarFilter, specScalarDrop, ih]
      | switchStateReading =>
          by_cases hsw : vd.removeSwitchStateReadings = true <;>
            simp [correctFrom, correctionStep, hsw, List.filterMap_cons, altProj, ih]
      | legacyAcceleration v =>
          simp [correctFrom, correctionStep, List.filterMap_cons, altProj, ih]
      | accelerationReading v =>
          simp [correctFrom, correctionStep, List.filterMap_cons, altProj, ih]
      | magneticFieldReading v =>
          by_cases hc : st.foundMagneticField = true
              ∧ (v.x = st.prevMagneticField.x ∨ v.y = st.prevMagneticField.y
                  ∨ v.z = st.prevMagneticField.z) <;>
            simp [correctFrom, correctionStep, hc, List.filterMap_cons, altProj, ih]
      | angularVelocityReading v =>
          by_cases hc : st.foundAngularVelocity = true
              ∧ (v.x = st.prevAngularVelocity.x ∨ v.y = st.prevAngularVelocity.y
                  ∨ v.z = st.prevAngularVelocity.z) <;>
            simp [correctFrom, correctionStep, hc, List.filterMap_cons, altProj, ih]
      | groundSpeedReading x =>
          by_cases hc : st.foundGroundSpeed = true
              ∧ (st.prevGroundSpeed - x > 0.98 * |st.prevGroundSpeed|
                  ∨ x = st.prevGroundSpeed) <;>
            simp [correctFrom, correctionStep, hc, List.filterMap_cons, altProj, ih]
      | geodeticHeadingReading x =>
          by_cases h0 : |x| < 0.001
          · simp [correctFrom, correctionStep, h0, List.filterMap_cons, altProj, ih]
          · by_cases hc : st.foundGeodeticHeading = true
                ∧ (st.prevGeodeticHeading - x > 0.98 * |st.prevGeodeticHeading|
                    ∨ x = st.prevGeodeticHeading) <;>
              simp [correctFrom, correctionStep, h0, hc, List.filterMap_cons,
                altProj, ih]
      | other =>
          simp [correctFrom, correctionStep, List.filterMap_cons, altProj, ih]

lemma correctFrom_gsProj (vd : Verdict) (rs : List Record) :
    ∀ st : DedupState,
      (correctFrom vd st rs).filterMap gsProj
        = specScalarFilter
            (if st.foundGroundSpeed then some st.prevGroundSpeed else none)
            (rs.filterMap gsProj) := by
  induction rs with
  | nil =>
      intro st
      cases hf : st.foundGroundSpeed <;> simp [correctFrom, specScalarFilter, hf]
  | cons r rest ih =>
      intro st
      cases r with
      | groundSpeedReading x =>
          by_cases hf : st.foundGroundSpeed = true
          · by_cases hs : st.prevGroundSpeed - x > 0.98 * |st.prevGroundSpeed|
                ∨ x = st.prevGroundSpeed
            · simp [correctFrom, correctionStep, hf, hs, List.filterMap_cons,
                gsProj, specScalarFilter, specScalarDrop, ih]
            · simp [correctFrom, correctionStep, hf, hs, List.filterMap_cons,
                gsProj, specScalarFilter, specScalarDrop, ih]
          · simp [correctFrom, correctionStep, hf, List.filterMap_cons,
              gsProj, specScalarFilter, specScalarDrop, ih]
      | switchStateReading =>
          by_cases hsw : vd.removeSwitchStateReadings = true <;>
            simp [correctFrom, correctionStep, hsw, List.filterMap_cons, gsProj, ih]
      | legacyAcceleration v =>
          simp [correctFrom, correctionStep, List.filterMap_cons, gsProj, ih]
      | accelerationReading v =>
          simp [correctFrom, correctionStep, List.filterMap_cons, gsProj, ih]
      | magneticFieldReading v =>
          by_cases hc : st.foundMagneticField = true
              ∧ (v.x = st.prevMagneticField.x ∨ v.y = st.prevMagneticField.y
                  ∨ v.z = st.prevMagneticField.z) <;>
            simp [correctFrom, correctionStep, hc, List.filterMap_cons, gsProj, ih]
      | angularVelocityReading v =>
          by_cases hc : st.foundAngularVelocity = true
              ∧ (v.x = st.prevAngularVelocity.x ∨ v.y = st.prevAngularVelocity.y
                  ∨ v.z = st.prevAngularVelocity.z) <;>
            simp [correctFrom, correctionStep, hc, List.filterMap_cons, gsProj, ih]
      | altitudeReading x =>
          by_cases hc : st.foundAltitude = true
              ∧ (st.prevAltitude - x > 0.98 * |st.prevAltitude| ∨ x = st.prevAltitude) <;>
            simp [correctFrom, correctionStep, hc, List.filterMap_cons, gsProj, ih]
      | geodeticHeadingReading x =>
          by_cases h0 : |x| < 0.001
          · simp [correctFrom, correctionStep, h0, List.filterMap_cons, gsProj, ih]
          · by_cases hc : st.foundGeodeticHeading = true
                ∧ (st.prevGeodeticHeading - x > 0.98 * |st.prevGeodeticHeading|
                    ∨ x = st.prevGeodeticHeading) <;>
              simp [correctFrom, correctionStep, h0, hc, List.filterMap_cons,
                gsProj, ih]
      | other =>
          simp [correctFrom, correctionStep, List.filterMap_cons, gsProj, ih]

lemma correctFrom_headProj (vd : Verdict) (rs : List Record) :
    ∀ st : DedupState,
      (correctFrom vd st rs).filterMap headProj
        = specHeadingFilter
            (if st.foundGeodeticHeading then some st.prevGeodeticHeading else none)
            (rs.filterMap headProj) := by
  induction rs with
  | nil => intro st; rfl
  | cons r rest ih =>
      intro st
      cases r with
      | geodeticHeadingReading x =>
          by_cases h0 : |x| < 0.001
          · simp [correctFrom, correctionStep, h0, List.filterMap_cons,
              headProj, specHeadingFilter, ih]
          · by_cases hf : st.foundGeodeticHeading = true
            · by_cases hs : st.prevGeodeticHeading - x > 0.98 * |st.prevGeodeticHeading|
                  ∨ x = st.prevGeodeticHeading
              · simp [correctFrom, correctionStep, h0, hf, hs, List.filterMap_cons,
                  headProj, specHeadingFilter, specScalarDrop, ih]
              · simp [correctFrom, correctionStep, h0, hf, hs, List.filterMap_cons,
                  headProj, specHeadingFilter, specScalarDrop, ih]
            · simp [correctFrom, correctionStep, h0, hf, List.filterMap_cons,
                headProj, specHeadingFilter, specScalarDrop, ih]
      | switchStateReading =>
          by_cases hsw : vd.removeSwitchStateReadings = true <;>
            simp [correctFrom, correctionStep, hsw, List.filterMap_cons, headProj, ih]
      | legacyAcceleration v =>
          simp [correctFrom, correctionStep, List.filterMap_cons, headProj, ih]
      | accelerationReading v =>
          simp [correctFrom, correctionStep, List.filterMap_cons, headProj, ih]
      | magneticFieldReading v =>
          by_cases hc : st.foundMagneticField = true
              ∧ (v.x = st.prevMagneticField.x ∨ v.y = st.prevMagneticField.y
                  ∨ v.z = st.prevMagneticField.z) <;>
            simp [correctFrom, correctionStep, hc, List.filterMap_cons, headProj, ih]
      | angularVelocityReading v =>
          by_cases hc : st.foundAngularVelocity = true
              ∧ (v.x = st.prevAngularVelocity.x ∨ v.y = st.prevAngularVelocity.y
                  ∨ v.z = st.prevAngularVelocity.z) <;>
            simp [correctFrom, correctionStep, hc, List.filterMap_cons, headProj, ih]
      | altitudeReading x =>
          by_cases hc : st.foundAltitude = true
              ∧ (st.prevAltitude - x > 0.98 * |st.prevAltitude| ∨ x = st.prevAltitude) <;>
            simp [correctFrom, correctionStep, hc, List.filterMap_cons, headProj, ih]
      | groundSpeedReading x =>
          by_cases hc : st.foundGroundSpeed = true
              ∧ (st.prevGroundSpeed - x > 0.98 * |st.prevGroundSpeed|
                  ∨ x = st.prevGroundSpeed) <;>
            simp [correctFrom, correctionStep, hc, List.filterMap_cons, headProj, ih]
      | other =>
          simp [correctFrom, correctionStep, List.filterMap_cons, headProj, ih]

/-- Claim C3: in the transform pass, the kept `MagneticFieldReading` and
`AngularVelocityReading` records are exactly those of the any-axis bit-exact
dedup rule against the previous kept record of the same kind (the kept
magnetic ones then corrected); concretely, of two consecutive magnetic
readings sharing only the X axis the second is dropped, and three readings
with no consecutively repeating axis are all kept. -/
theorem dedup_any_axis (vd : Verdict) (rs : List Record) :
    ((correctRecords vd rs).filterMap magProj
        = (specDedupVec3 none (rs.filterMap magProj)).map (magCorrect vd))
    ∧ ((correctRecords vd rs).filterMap angProj
        = specDedupVec3 none (rs.filterMap angProj))
    ∧ correctRecords
        { isBeforeSiPatch := false, isFromBrokenPatch := false,
          removeSwitchStateReadings := true, isFine := false }
        [Record.magneticFieldReading ⟨1, 2, 3⟩, Record.magneticFieldReading ⟨1, 5, 6⟩]
        = [Record.magneticFieldReading ⟨1, 2, 3⟩]
    ∧ correctRecords
        { isBeforeSiPatch := false, isFromBrokenPatch := false,
          removeSwitchStateReadings := true, isFine := false }
        [Record.magneticFieldReading ⟨1, 2, 3⟩, Record.magneticFieldReading ⟨4, 5, 6⟩,
          Record.magneticFieldReading ⟨7, 8, 9⟩]
        = [Record.magneticFieldReading ⟨1, 2, 3⟩, Record.magneticFieldReading ⟨4, 5, 6⟩,
          Record.magneticFieldReading ⟨7, 8, 9⟩] := by
  refine ⟨?_, ?_, ?_, ?_⟩
  · have h := correctFrom_magProj vd rs initDedup
    simpa [correctRecords, initDedup] using h
  · have h := correctFrom_angProj vd rs initDedup
    simpa [correctRecords, initDedup] using h
  · simp [correctRecords, correctFrom, correctionStep, initDedup, magCorrect]
  · simp [correctRecords, correctFrom, correctionStep, initDedup, magCorrect]

/-- Claim C4: in the transform pass, the kept `AltitudeReading` and
`GroundSpeedReading` records are exactly those of the spec's scalar drop
rule (drop iff not-first and sudden large drop or bit-exact duplicate), and
`GeodeticHeadingReading` additionally drops near-zero headings
unconditionally; concretely, a heading of 0.0005 is dropped even as the
first of its kind, while 45.0 following a kept 44.9 is kept. -/
theorem scalar_drop_rules (vd : Verdict) (rs : List Record) :
    ((correctRecords vd rs).filterMap altProj
        = specScalarFilter none (rs.filterMap altProj))
    ∧ ((correctRecords vd rs).filterMap gsProj
        = specScalarFilter none (rs.filterMap gsProj))
    ∧ ((correctRecords vd rs).filterMap headProj
        = specHeadingFilter none (rs.filterMap headProj))
    ∧ correctRecords
        { isBeforeSiPatch := false, isFromBrokenPatch := false,
          removeSwitchStateReadings := true, isFine := false }
        [Record.geodeticHeadingReading 0.0005] = []
    ∧ correctRecords
        { isBeforeSiPatch := false, isFromBrokenPatch := false,
          removeSwitchStateReadings := true, isFine := false }
        [Record.geodeticHeadingReading 44.9, Record.geodeticHeadingReading 45.0]
        = [Record.geodeticHeadingReading 44.9, Record.geodeticHeadingReading 45.0] := by
  refine ⟨?_, ?_, ?_, ?_, ?_⟩
  · have h := correctFrom_altProj vd rs initDedup
    simpa [correctRecords, initDedup] using h
  · have h := correctFrom_gsProj vd rs initDedup
    simpa [correctRecords, initDedup] using h
  · have h := correctFrom_headProj vd rs initDedup
    simpa [correctRecords, initDedup] using h
  · norm_num [correctRecords, correctFrom, correctionStep, initDedup, abs_of_nonneg]
  · norm_num [correctRecords, correctFrom, correctionStep, initDedup, abs_of_nonneg]

/-! ## Path-collision check of `main` (lines 452-459 of the source) -/

